import Mathlib

/-!
Verification development for the TRAILS Mapillary bulk-download script
(`src/mapillary_download.py`).  The script is embedded shallowly: the
orchestrator `main` becomes an explicit state-passing function over an
oracle describing the remote API, a functional model of the local file
system, and an event trace recording every network call the orchestrator
issues.  The urllib3 retry policy configured in `build_session` is
modelled separately as an explicit retry loop.
-/

namespace Trails

/-! ## Python string primitives

The script manipulates CSV cells with `str.strip()`, `str.lower()` and
`int(...)`.  These are modelled directly on the character list underlying
`String` so that every definition evaluates inside the kernel. -/

/-- Model of Python `str.lower()`: lower-case every character. -/
def pyLower (s : String) : String := String.mk (s.data.map Char.toLower)

/-- Model of Python `str.strip()`: drop leading and trailing whitespace. -/
def pyStrip (s : String) : String :=
  String.mk (((s.data.dropWhile Char.isWhitespace).reverse.dropWhile
      Char.isWhitespace).reverse)

/-- Value of a single decimal digit character, if it is one. -/
def charDigit? (c : Char) : Option Nat :=
  if c.isDigit then some (c.toNat - 48) else none

/-- Accumulate one character of a decimal literal. -/
def pyDigitsStep (acc : Option Nat) (c : Char) : Option Nat :=
  acc.bind fun n => (charDigit? c).map fun d => n * 10 + d

/-- Parse a nonempty all-digit character list, as Python `int` does after
sign handling; any non-digit (or emptiness) is a `ValueError`. -/
def pyDigits? (cs : List Char) : Option Nat :=
  if cs = [] then none else cs.foldl pyDigitsStep (some 0)

/-- Model of Python `int(s)` on an already-stripped string: optional sign
followed by at least one digit. -/
def pyInt? (s : String) : Option Int :=
  match s.data with
  | '-' :: rest => (pyDigits? rest).map fun n => -(n : Int)
  | '+' :: rest => (pyDigits? rest).map fun n => (n : Int)
  | cs => (pyDigits? cs).map fun n => (n : Int)

/-! ## File system model

`data/images` holds one binary file per image id.  A file system is a map
from path to byte content; bytes are `Nat`s. -/

/-- A file system: paths to byte contents. -/
def FS := String → Option (List Nat)

/-- The empty file system. -/
def emptyFS : FS := fun _ => none

/-- Content of the file at path `p`, if present. -/
def fsLookup (fs : FS) (p : String) : Option (List Nat) := fs p

/-- Model of `os.path.exists`. -/
def fsExists (fs : FS) (p : String) : Bool := (fs p).isSome

/-- Model of `open(p, "wb")` followed by writing `d`: create or truncate. -/
def fsWrite (fs : FS) (p : String) (d : List Nat) : FS :=
  fun q => if q = p then some d else fs q

/-- Model of `os.replace(src, dst)`: atomically rename `src` onto `dst`,
overwriting `dst` and removing `src`.  The script only calls it on a
`src` it has just written, so the missing-`src` error path never fires
and is modelled as a no-op. -/
def fsReplace (fs : FS) (src dst : String) : FS :=
  match fs src with
  | none => fs
  | some d => fun q => if q = src then none else if q = dst then some d else fs q

/-! ## Remote API model -/

/-- Result of one streamed byte fetch (`SESSION.get(url, stream=True)`):
either the request itself fails (connection failure after exhausted
retries, or a non-2xx status raised by `raise_for_status`), or a body
stream delivers `chunks` and then either completes or aborts mid-stream
(`complete = false` means a `RequestException` is raised after the
delivered chunks were already written). -/
inductive FetchResult where
  | httpError
  | stream (chunks : List (List Nat)) (complete : Bool)

/-- A fetch that raises a `requests.RequestException` before `os.replace`
can run: either no body at all, or a stream aborting mid-transfer. -/
def fetchFails : FetchResult → Prop
  | .httpError => True
  | .stream _ complete => complete = false

/-- Geometry object of a candidate (`computed_geometry` / `geometry`).
An absent or empty `coordinates` member is modelled by a short list. -/
structure Geometry where
  coordinates : List ℚ
deriving DecidableEq

/-- One element of the `data` array returned by the image-listing call.
`id` is the `str()` rendering of the raw id field (`none` when absent);
`captured_at` is milliseconds since the epoch (`none` when absent). -/
structure Candidate where
  id : Option String
  computed_geometry : Option Geometry
  geometry : Option Geometry
  captured_at : Option Int
deriving DecidableEq

/-- The remote service as a deterministic oracle: the three GET shapes of
the script.  `listImages` models `fetch_images_for_bbox` (`.error` is a
`requests.RequestException`, including a status error raised by
`raise_for_status` after exhausted retries); `thumbUrl` models the full
result of `fetch_thumb_url` (`none` covers both "no usable URL" and
persistent request failures, which the function swallows); `fetchStream`
models the streamed GET inside `download_image`. -/
structure Remote where
  listImages : String → Int → Except Unit (List Candidate)
  thumbUrl : String → Option String
  fetchStream : String → FetchResult

/-! ## Pure helpers of the script -/

/-- Model of `safe_coords`: prefer `computed_geometry`, fall back to
`geometry` (Python `or` treats an absent/empty dict as falsy), require at
least two coordinate components. -/
def safe_coords (img : Candidate) : Option (ℚ × ℚ) :=
  match img.computed_geometry.orElse (fun _ => img.geometry) with
  | none => none
  | some g =>
    match g.coordinates with
    | a :: b :: _ => some (a, b)
    | _ => none

/-- Stand-in for `datetime.fromtimestamp(v / 1000, UTC).isoformat()`: an
injective rendering of the millisecond value.  No claim inspects the
text of the timestamp, only which branch of `safe_timestamp_ms` ran. -/
def isoFromMillis (v : Int) : String := "iso:" ++ toString v

/-- Model of `safe_timestamp_ms`.  A present value is a JSON integer, so
`str(v).strip()` is nonempty and `int(v)` succeeds; an absent value
yields the empty string. -/
def safe_timestamp_ms (ms : Option Int) : String :=
  match ms with
  | none => ""
  | some v => isoFromMillis v

/-- Image id of a candidate as the script computes it:
`str(img.get("id", "")).strip()`. -/
def candId (img : Candidate) : String := pyStrip (img.id.getD "")

/-- Model of `os.path.join(IMAGES_DIR, f"<id>.jpg")`. -/
def imgPath (imgId : String) : String := "data/images/" ++ imgId ++ ".jpg"

/-- Model of `os.path.relpath` on a path the script built relative to the
working directory: the identity. -/
def relpathModel (p : String) : String := p

/-! ## Catalog records and network trace -/

/-- One row of `data/images_metadata.csv` (an `ImageRecord`). -/
structure ImageRecord where
  id : String
  location_name : String
  longitude : ℚ
  latitude : ℚ
  captured_at : String
  file_path : String
  image_url : String
deriving DecidableEq

/-- Ids of the records of a catalog. -/
def metaIds (meta : List ImageRecord) : List String :=
  meta.map ImageRecord.id

/-- One network call issued by the orchestrator.  A `thumbCall` stands
for the one-or-two GETs of `fetch_thumb_url`; a `byteFetch` is the
streamed GET of `download_image`. -/
inductive NetEvent where
  | listCall (bbox : String) (lim : Int)
  | thumbCall (imgId : String)
  | byteFetch (url : String)
deriving DecidableEq

/-! ## download_image -/

/-- Model of `download_image`: write the streamed chunks (skipping falsy
empty chunks, as `if chunk:` does) to `dest + ".part"`, and only on a
fully consumed stream atomically rename onto `dest`.  Returns the file
system and whether the download succeeded (`false` = the exception path
taken by the caller's `except requests.RequestException`). -/
def download_image (remote : Remote) (fs : FS) (url dest : String) :
    FS × Bool :=
  let tmp := dest ++ ".part"
  match remote.fetchStream url with
  | .httpError => (fs, false)
  | .stream chunks complete =>
    let data := (chunks.filter (fun c => !c.isEmpty)).flatten
    let fs1 := fsWrite fs tmp data
    if complete then (fsReplace fs1 tmp dest, true) else (fs1, false)

/-! ## Per-candidate processing -/

/-- State threaded through the inner candidate loop of `main`:
`existing_ids`, the `new_rows` accumulator, the file system, and the
trace of network calls issued so far. -/
structure CandState where
  ids : List String
  newRows : List ImageRecord
  fs : FS
  events : List NetEvent

/-- The record appended for a fully processed candidate. -/
def mkRecord (imgId loc : String) (lon lat : ℚ) (ts path url : String) :
    ImageRecord :=
  { id := imgId, location_name := loc, longitude := lon, latitude := lat,
    captured_at := ts, file_path := relpathModel path, image_url := url }

/-- Model of one iteration of the `for img in images` loop of `main`:
skip blank or already-seen ids before any network call, then resolve
coordinates, then call `fetch_thumb_url`, then (only if no file already
sits at the deterministic path) download, and finally append the record
and mark the id as seen. -/
def processCand (remote : Remote) (loc : String) (st : CandState)
    (img : Candidate) : CandState :=
  let imgId := candId img
  if imgId = "" ∨ imgId ∈ st.ids then st
  else
    match safe_coords img with
    | none => st
    | some (lon, lat) =>
      let ts := safe_timestamp_ms img.captured_at
      let st1 := { st with events := st.events ++ [NetEvent.thumbCall imgId] }
      match remote.thumbUrl imgId with
      | none => st1
      | some url =>
        let path := imgPath imgId
        if fsExists st1.fs path then
          { st1 with
            newRows := st1.newRows ++ [mkRecord imgId loc lon lat ts path url],
            ids := st1.ids ++ [imgId] }
        else
          let st2 :=
            { st1 with events := st1.events ++ [NetEvent.byteFetch url] }
          let dl := download_image remote st2.fs url path
          let st3 := { st2 with fs := dl.1 }
          if dl.2 then
            { st3 with
              newRows :=
                st3.newRows ++ [mkRecord imgId loc lon lat ts path url],
              ids := st3.ids ++ [imgId] }
          else st3

/-! ## Task rows and the per-task loop -/

/-- One row of `data/bounding_boxes.csv` (a `BoundingBoxTask`).  The four
numeric bound cells are modelled by the result of Python `float(cell)`
after the per-column strip: `some q` when the cell parses, `none` when
`float` raises, which is exactly the distinction `main` observes.  The
remaining cells are kept as raw strings. -/
structure BBoxRow where
  location_name : String
  min_lon : Option ℚ
  min_lat : Option ℚ
  max_lon : Option ℚ
  max_lat : Option ℚ
  lim : String
  downloaded : String
deriving DecidableEq

/-- The per-column `astype(str).str.strip()` pass applied to the loaded
queue.  Stripping the numeric columns is absorbed into the `Option ℚ`
parse abstraction. -/
def trimRow (r : BBoxRow) : BBoxRow :=
  { r with location_name := pyStrip r.location_name,
           lim := pyStrip r.lim,
           downloaded := pyStrip r.downloaded }

/-- Model of `int(row.get("limit", "") or "60")` with `ValueError`
falling back to 60. -/
def parseLimit (s : String) : Int :=
  match pyInt? (if s = "" then "60" else s) with
  | some n => n
  | none => 60

/-- Model of the f-string `f"{min_lon},{min_lat},{max_lon},{max_lat}"`.
The exact float rendering is immaterial: the string is only an opaque,
deterministic key into the remote oracle. -/
def bboxStr (a b c d : ℚ) : String :=
  toString a ++ "," ++ toString b ++ "," ++ toString c ++ "," ++ toString d

/-- The row written back when a task was attempted: `downloaded = "yes"`. -/
def setYes (r : BBoxRow) : BBoxRow := { r with downloaded := "yes" }

/-- State threaded through the task loop of `main`. -/
structure OrchState where
  ids : List String
  meta : List ImageRecord
  totalNew : Nat
  fs : FS
  events : List NetEvent

/-- Merge of the candidate-loop state back into the task-loop state:
the `if new_rows:` block of `main` (concatenate the fresh records and
bump `total_new` exactly when `new_rows` is nonempty). -/
def mergeState (st : OrchState) (c1 : CandState) : OrchState :=
  if c1.newRows = [] then
    { ids := c1.ids, meta := st.meta, totalNew := st.totalNew,
      fs := c1.fs, events := c1.events }
  else
    { ids := c1.ids, meta := st.meta ++ c1.newRows,
      totalNew := st.totalNew + c1.newRows.length,
      fs := c1.fs, events := c1.events }

/-- Model of one iteration of the `for idx, row in bbox_df.iterrows()`
loop: skip completed rows; skip (without completing) rows whose bounds
fail to parse; call the listing API; on a `RequestException` leave the
row untouched; otherwise run the candidate loop, merge `new_rows` into
the catalog, and mark the row `downloaded = "yes"` regardless of
per-candidate outcomes.  Returns the updated state and the row as it
will be written back. -/
def processRow (remote : Remote) (st : OrchState) (row : BBoxRow) :
    OrchState × BBoxRow :=
  if pyLower row.downloaded = "yes" then (st, row)
  else
    match row.min_lon, row.min_lat, row.max_lon, row.max_lat with
    | some a, some b, some c, some d =>
      let bbox := bboxStr a b c d
      let lim := parseLimit row.lim
      let evs := st.events ++ [NetEvent.listCall bbox lim]
      match remote.listImages bbox lim with
      | .error _ => ({ st with events := evs }, row)
      | .ok imgs =>
        let c0 : CandState :=
          { ids := st.ids, newRows := [], fs := st.fs, events := evs }
        let c1 := imgs.foldl (processCand remote row.location_name) c0
        (mergeState st c1, setYes row)
    | _, _, _, _ => (st, row)

/-- The queue row written back for a given input row: the row component
of `processRow`, which depends only on the remote oracle and the row. -/
def rowStep (remote : Remote) (row : BBoxRow) : BBoxRow :=
  if pyLower row.downloaded = "yes" then row
  else
    match row.min_lon, row.min_lat, row.max_lon, row.max_lat with
    | some a, some b, some c, some d =>
      match remote.listImages (bboxStr a b c d) (parseLimit row.lim) with
      | .error _ => row
      | .ok _ => setYes row
    | _, _, _, _ => row

/-- The task loop: fold `processRow` over the queue, collecting the rows
written back in order. -/
def runRows (remote : Remote) (st : OrchState) :
    List BBoxRow → OrchState × List BBoxRow
  | [] => (st, [])
  | row :: rest =>
    let p := processRow remote st row
    let q := runRows remote p.1 rest
    (q.1, p.2 :: q.2)

/-! ## A whole run of main -/

/-- Input of one run: the loaded queue and catalog, the local file
system, and the remote oracle. -/
structure RunInput where
  rows : List BBoxRow
  meta : List ImageRecord
  fs : FS
  remote : Remote

/-- Observable outcome of one run.  `queueFile` is the content written
unconditionally to `data/bounding_boxes.csv`; `metaFile` is the content
written to `data/images_metadata.csv`, or `none` when the save is
skipped because `total_new == 0`. -/
structure RunOutput where
  rowsOut : List BBoxRow
  meta : List ImageRecord
  totalNew : Nat
  fs : FS
  events : List NetEvent
  queueFile : List BBoxRow
  metaFile : Option (List ImageRecord)

/-- Model of `main` after the fatal-startup checks: per-column strip,
seed `existing_ids` from the loaded catalog, run the task loop, always
rewrite the queue file, and rewrite the catalog file only when at least
one record was added. -/
def runMain (inp : RunInput) : RunOutput :=
  let rows := inp.rows.map trimRow
  let st0 : OrchState :=
    { ids := metaIds inp.meta, meta := inp.meta, totalNew := 0,
      fs := inp.fs, events := [] }
  let res := runRows inp.remote st0 rows
  { rowsOut := res.2, meta := res.1.meta, totalNew := res.1.totalNew,
    fs := res.1.fs, events := res.1.events, queueFile := res.2,
    metaFile := if res.1.totalNew > 0 then some res.1.meta else none }

/-- Environment of one run in a multi-run sequence: everything except
the queue, which is threaded from run to run through the queue file. -/
structure RunEnv where
  remote : Remote
  meta : List ImageRecord
  fs : FS

/-- Queue contents after a sequence of runs, each loading the queue file
the previous run wrote. -/
def queueAfterRuns : List RunEnv → List BBoxRow → List BBoxRow
  | [], rows => rows
  | e :: es, rows =>
    queueAfterRuns es
      (runMain { rows := rows, meta := e.meta, fs := e.fs,
                 remote := e.remote }).queueFile

/-! ## Transport retry policy

`build_session` mounts `Retry(total=5, connect=5, read=5,
backoff_factor=1.0, status_forcelist=[429, 500, 502, 503, 504],
allowed_methods=["GET"], raise_on_status=False)`.  The following models
one GET through that adapter: each failed attempt decrements the retry
budget; a retryable failure with budget left sleeps the urllib3
`get_backoff_time` value — 0 before the first retry (the
`consecutive_errors_len <= 1` case; `_sleep_backoff` skips a zero
backoff, so that retry is immediate), then
`backoff_factor * 2^(retriesSoFar - 1)` — and goes again; once the
budget is exhausted, a status failure is returned as the response
(`raise_on_status=False`) and a connection failure raises
`MaxRetryError` (`response = none`).  The `connect` and `read` counters
equal `total`, so `total` always exhausts first and is the only counter
modelled. -/

/-- Outcome of one attempt as seen by the retry layer. -/
inductive ServerResp where
  | status (code : Nat)
  | connFail
deriving DecidableEq

/-- What one GET through the session produced: how many attempts were
issued, the `get_backoff_time` value before each retry (a zero entry
means that retry happened immediately, since `_sleep_backoff` skips a
non-positive backoff), and the final response (`none` = `MaxRetryError`
from connection failures). -/
structure RetryOutcome where
  attempts : Nat
  sleeps : List Nat
  response : Option Nat
deriving DecidableEq

/-- `status_forcelist` of `build_session`. -/
def statusForcelist : List Nat := [429, 500, 502, 503, 504]

/-- `total=5` of `build_session`: the number of retries allowed. -/
def retryTotal : Nat := 5

/-- `backoff_factor=1.0` of `build_session`; the factor is integral, so
sleep durations are modelled in whole time units. -/
def retryBackoffFactor : Nat := 1

/-- urllib3 `Retry.get_backoff_time` before the `n`-th retry: zero when
`consecutive_errors_len <= 1` (so the first retry has no backoff and
`_sleep_backoff` performs no sleep at all), and
`backoff_factor * 2^(n-1)` from the second retry on. -/
def retryBackoff (n : Nat) : Nat :=
  if n ≤ 1 then 0 else retryBackoffFactor * 2 ^ (n - 1)

/-- The retry loop, `remaining` retries left, `k` attempts already
issued, `sleeps` accumulated. -/
def runRetryGo (server : Nat → ServerResp) :
    Nat → Nat → List Nat → RetryOutcome
  | 0, k, sleeps =>
    (match server k with
     | .status c => { attempts := k + 1, sleeps := sleeps, response := some c }
     | .connFail => { attempts := k + 1, sleeps := sleeps, response := none })
  | r + 1, k, sleeps =>
    (match server k with
     | .status c =>
       if c ∈ statusForcelist then
         runRetryGo server r (k + 1)
           (sleeps ++ [retryBackoff (retryTotal - r)])
       else { attempts := k + 1, sleeps := sleeps, response := some c }
     | .connFail =>
       runRetryGo server r (k + 1)
         (sleeps ++ [retryBackoff (retryTotal - r)]))

/-- One GET through the session built by `build_session`, against a
server answering attempt `k` with `server k`. -/
def runRetry (server : Nat → ServerResp) : RetryOutcome :=
  runRetryGo server retryTotal 0 []

/-! ## Lemmas about the string primitives -/

theorem dropWhile_dropWhile (p : Char → Bool) (l : List Char) :
    (l.dropWhile p).dropWhile p = l.dropWhile p := by
  induction l with
  | nil => rfl
  | cons a t ih =>
    by_cases h : p a
    · simp [List.dropWhile, h, ih]
    · simp [List.dropWhile, h]

theorem head_dropWhile_false (p : Char → Bool) (l : List Char) (a : Char)
    (h : (l.dropWhile p).head? = some a) : p a = false := by
  induction l with
  | nil => simp [List.dropWhile] at h
  | cons b t ih =>
    by_cases hb : p b
    · simp [List.dropWhile, hb] at h
      exact ih h
    · simp [List.dropWhile, hb] at h
      simpa [h] using hb

theorem pyStrip_idem (s : String) : pyStrip (pyStrip s) = pyStrip s := by
  unfold pyStrip
  set p := Char.isWhitespace with hp
  set y := s.data.dropWhile p with hy
  set w := y.reverse.dropWhile p with hw
  have hdata : (String.mk w.reverse).data = w.reverse := rfl
  rw [hdata]
  have hstep1 : w.reverse.dropWhile p = w.reverse := by
    have hsuf : ∃ t, t ++ w = y.reverse := (List.dropWhile_suffix p : w <:+ y.reverse)
    obtain ⟨t, ht⟩ := hsuf
    have hyeq : y = w.reverse ++ t.reverse := by
      have := congrArg List.reverse ht
      simpa [List.reverse_append] using this.symm
    cases hwr : w.reverse with
    | nil => rfl
    | cons a z =>
      have hhead : y.head? = some a := by
        rw [hyeq, hwr]; rfl
      have hpa : p a = false := by
        apply head_dropWhile_false p s.data a
        rw [← hy]; exact hhead
      simp [List.dropWhile, hpa]
  rw [hstep1, List.reverse_reverse, hw, dropWhile_dropWhile]

theorem pyStrip_yes : pyStrip "yes" = "yes" := by decide

theorem pyLower_yes : pyLower "yes" = "yes" := by decide

theorem trimRow_idem (r : BBoxRow) : trimRow (trimRow r) = trimRow r := by
  simp [trimRow, pyStrip_idem]

theorem trimRow_setYes (r : BBoxRow) :
    trimRow (setYes (trimRow r)) = setYes (trimRow r) := by
  simp [trimRow, setYes, pyStrip_idem, pyStrip_yes]

/-! ## Characterization of the per-task step -/

theorem processRow_yes (remote : Remote) (st : OrchState) (row : BBoxRow)
    (h : pyLower row.downloaded = "yes") :
    processRow remote st row = (st, row) := by
  simp [processRow, h]

theorem processRow_parseFail (remote : Remote) (st : OrchState)
    (row : BBoxRow) (h : ¬ pyLower row.downloaded = "yes")
    (hn : row.min_lon = none ∨ row.min_lat = none ∨ row.max_lon = none ∨
      row.max_lat = none) :
    processRow remote st row = (st, row) := by
  rcases hml : row.min_lon with _ | a <;>
    rcases hmt : row.min_lat with _ | b <;>
      rcases hxl : row.max_lon with _ | c <;>
        rcases hxt : row.max_lat with _ | d <;>
          simp [hml, hmt, hxl, hxt] at hn ⊢ <;>
            simp [processRow, h, hml, hmt, hxl, hxt]

theorem processRow_listErr (remote : Remote) (st : OrchState)
    (row : BBoxRow) (a b c d : ℚ) (e : Unit)
    (h : ¬ pyLower row.downloaded = "yes")
    (h1 : row.min_lon = some a) (h2 : row.min_lat = some b)
    (h3 : row.max_lon = some c) (h4 : row.max_lat = some d)
    (he : remote.listImages (bboxStr a b c d) (parseLimit row.lim) =
      .error e) :
    processRow remote st row =
      ({ st with events :=
          st.events ++ [NetEvent.listCall (bboxStr a b c d)
            (parseLimit row.lim)] }, row) := by
  simp [processRow, h, h1, h2, h3, h4, he]

theorem processRow_snd (remote : Remote) (st : OrchState) (row : BBoxRow) :
    (processRow remote st row).2 = rowStep remote row := by
  by_cases h : pyLower row.downloaded = "yes"
  · simp [processRow, rowStep, h]
  · rcases hml : row.min_lon with _ | a <;>
      rcases hmt : row.min_lat with _ | b <;>
        rcases hxl : row.max_lon with _ | c <;>
          rcases hxt : row.max_lat with _ | d <;>
            simp [processRow, rowStep, h, hml, hmt, hxl, hxt]
    rcases hr : remote.listImages (bboxStr a b c d) (parseLimit row.lim)
        with e | imgs <;> simp [hr]

theorem rowStep_yes (remote : Remote) (row : BBoxRow)
    (h : pyLower row.downloaded = "yes") : rowStep remote row = row := by
  simp [rowStep, h]

theorem rowStep_cases (remote : Remote) (row : BBoxRow) :
    rowStep remote row = row ∨ rowStep remote row = setYes row := by
  by_cases h : pyLower row.downloaded = "yes"
  · left; exact rowStep_yes remote row h
  · rcases hml : row.min_lon with _ | a <;>
      rcases hmt : row.min_lat with _ | b <;>
        rcases hxl : row.max_lon with _ | c <;>
          rcases hxt : row.max_lat with _ | d <;>
            simp [rowStep, h, hml, hmt, hxl, hxt]
    rcases hr : remote.listImages (bboxStr a b c d) (parseLimit row.lim)
        with e | imgs <;> simp [hr]

theorem setYes_downloaded_yes (row : BBoxRow) :
    pyLower (setYes row).downloaded = "yes" := by
  simp [setYes, pyLower_yes]

theorem rowStep_idem (remote : Remote) (row : BBoxRow) :
    rowStep remote (rowStep remote row) = rowStep remote row := by
  rcases rowStep_cases remote row with h | h
  · rw [h]; exact h
  · rw [h]; exact rowStep_yes remote (setYes row) (setYes_downloaded_yes row)

/-! ## Characterization of the per-candidate step -/

theorem processCand_skip (remote : Remote) (loc : String) (st : CandState)
    (img : Candidate) (h : candId img = "" ∨ candId img ∈ st.ids) :
    processCand remote loc st img = st := by
  simp [processCand, h]

theorem processCand_main_cases (remote : Remote) (loc : String)
    (st : CandState) (img : Candidate) :
    (∃ de fs2, processCand remote loc st img =
        { ids := st.ids, newRows := st.newRows, fs := fs2,
          events := st.events ++ de }) ∨
    (candId img ≠ "" ∧ candId img ∉ st.ids ∧
      ∃ lon lat url de fs2, safe_coords img = some (lon, lat) ∧
        remote.thumbUrl (candId img) = some url ∧
        processCand remote loc st img =
          { ids := st.ids ++ [candId img],
            newRows := st.newRows ++
              [mkRecord (candId img) loc lon lat
                (safe_timestamp_ms img.captured_at)
                (imgPath (candId img)) url],
            fs := fs2, events := st.events ++ de }) := by
  by_cases hskip : candId img = "" ∨ candId img ∈ st.ids
  · left
    exact ⟨[], st.fs, by simp [processCand_skip remote loc st img hskip]⟩
  · rcases hc : safe_coords img with _ | ⟨lon, lat⟩
    · left
      exact ⟨[], st.fs, by simp [processCand, hskip, hc]⟩
    · rcases ht : remote.thumbUrl (candId img) with _ | url
      · left
        exact ⟨[NetEvent.thumbCall (candId img)], st.fs,
          by simp [processCand, hskip, hc, ht]⟩
      · push_neg at hskip
        by_cases hex : fsExists st.fs (imgPath (candId img)) = true
        · right
          refine ⟨hskip.1, hskip.2, lon, lat, url,
            [NetEvent.thumbCall (candId img)], st.fs, rfl, rfl, ?_⟩
          simp [processCand, hskip, hc, ht, hex]
        · by_cases hdl :
            (download_image remote st.fs url (imgPath (candId img))).2 = true
          · right
            refine ⟨hskip.1, hskip.2, lon, lat, url,
              [NetEvent.thumbCall (candId img), NetEvent.byteFetch url],
              (download_image remote st.fs url (imgPath (candId img))).1, rfl,
              rfl, ?_⟩
            simp [processCand, hskip, hc, ht, hex, hdl]
          · left
            refine ⟨[NetEvent.thumbCall (candId img), NetEvent.byteFetch url],
              (download_image remote st.fs url (imgPath (candId img))).1, ?_⟩
            simp [processCand, hskip, hc, ht, hex, hdl]

/-- Invariant carried through the candidate loop: `base` is the id set
at loop entry; every id obliged to be deduplicated is in the live id
set, the freshly created records have pairwise distinct, nonblank ids
not in `base`, and each is registered in the live id set. -/
def candInv (base : List String) (c : CandState) : Prop :=
  (∀ i ∈ base, i ∈ c.ids) ∧
  (∀ i ∈ metaIds c.newRows, i ∈ c.ids) ∧
  (metaIds c.newRows).Nodup ∧
  (∀ i ∈ metaIds c.newRows, i ∉ base ∧ i ≠ "")

theorem metaIds_append (a b : List ImageRecord) :
    metaIds (a ++ b) = metaIds a ++ metaIds b := by
  simp [metaIds]

theorem processCand_inv (remote : Remote) (loc : String) (st : CandState)
    (img : Candidate) (base : List String) (h : candInv base st) :
    candInv base (processCand remote loc st img) := by
  rcases processCand_main_cases remote loc st img with
    ⟨de, fs2, heq⟩ | ⟨hne, hmem, lon, lat, url, de, fs2, hc, ht, heq⟩
  · rw [heq]
    exact h
  · rw [heq]
    obtain ⟨hb, hr, hnd, hfr⟩ := h
    refine ⟨?_, ?_, ?_, ?_⟩
    · intro i hi
      simp only [List.mem_append]
      exact Or.inl (hb i hi)
    · intro i hi
      rw [metaIds_append] at hi
      simp only [List.mem_append] at hi ⊢
      rcases hi with hi | hi
      · exact Or.inl (hr i hi)
      · simp [metaIds, mkRecord] at hi
        simp [hi]
    · rw [metaIds_append]
      refine List.Nodup.append hnd ?_ ?_
      · simp [metaIds, mkRecord]
      · intro i hi hi2
        simp [metaIds, mkRecord] at hi2
        subst hi2
        exact hmem (hr _ hi)
    · intro i hi
      rw [metaIds_append] at hi
      simp only [List.mem_append] at hi
      rcases hi with hi | hi
      · exact hfr i hi
      · simp [metaIds, mkRecord] at hi
        subst hi
        constructor
        · intro hcontra
          exact hmem (hb _ hcontra)
        · exact hne

theorem foldCands_inv (remote : Remote) (loc : String) :
    ∀ (imgs : List Candidate) (c : CandState) (base : List String),
      candInv base c →
      candInv base (imgs.foldl (processCand remote loc) c) := by
  intro imgs
  induction imgs with
  | nil => intro c base h; exact h
  | cons img rest ih =>
    intro c base h
    exact ih _ base (processCand_inv remote loc c img base h)

theorem processCand_ids_mono (remote : Remote) (loc : String)
    (st : CandState) (img : Candidate) (i : String) (h : i ∈ st.ids) :
    i ∈ (processCand remote loc st img).ids := by
  rcases processCand_main_cases remote loc st img with
    ⟨de, fs2, heq⟩ | ⟨hne, hmem, lon, lat, url, de, fs2, hc, ht, heq⟩ <;>
      rw [heq] <;> simp [h]

theorem foldCands_ids_mono (remote : Remote) (loc : String) :
    ∀ (imgs : List Candidate) (c : CandState) (i : String), i ∈ c.ids →
      i ∈ (imgs.foldl (processCand remote loc) c).ids := by
  intro imgs
  induction imgs with
  | nil => intro c i h; exact h
  | cons img rest ih =>
    intro c i h
    exact ih _ i (processCand_ids_mono remote loc c img i h)

theorem foldCands_events (remote : Remote) (loc : String) :
    ∀ (imgs : List Candidate) (c : CandState),
      ∃ de, (imgs.foldl (processCand remote loc) c).events =
        c.events ++ de := by
  intro imgs
  induction imgs with
  | nil => intro c; exact ⟨[], by simp⟩
  | cons img rest ih =>
    intro c
    obtain ⟨d2, h2⟩ := ih (processCand remote loc c img)
    rcases processCand_main_cases remote loc c img with
      ⟨de, fs2, heq⟩ | ⟨hne, hmem, lon, lat, url, de, fs2, hc, ht, heq⟩ <;>
      · refine ⟨de ++ d2, ?_⟩
        simp only [List.foldl_cons] at h2 ⊢
        rw [h2, heq]
        simp

theorem runRows_snd (remote : Remote) :
    ∀ (rows : List BBoxRow) (st : OrchState),
      (runRows remote st rows).2 = rows.map (rowStep remote) := by
  intro rows
  induction rows with
  | nil => intro st; rfl
  | cons r rest ih =>
    intro st
    simp [runRows, ih, processRow_snd]

/-! ## Catalog evolution across the task loop -/

theorem processRow_ok (remote : Remote) (st : OrchState) (row : BBoxRow)
    (a b c d : ℚ) (imgs : List Candidate)
    (hyes : ¬ pyLower row.downloaded = "yes")
    (h1 : row.min_lon = some a) (h2 : row.min_lat = some b)
    (h3 : row.max_lon = some c) (h4 : row.max_lat = some d)
    (hr : remote.listImages (bboxStr a b c d) (parseLimit row.lim) =
      .ok imgs) :
    processRow remote st row =
      (mergeState st (imgs.foldl (processCand remote row.location_name)
        { ids := st.ids, newRows := [], fs := st.fs,
          events := st.events ++ [NetEvent.listCall (bboxStr a b c d)
            (parseLimit row.lim)] }), setYes row) := by
  simp [processRow, hyes, h1, h2, h3, h4, hr]

theorem mergeState_fields (st : OrchState) (c1 : CandState) :
    (mergeState st c1).meta = st.meta ++ c1.newRows ∧
    (mergeState st c1).totalNew = st.totalNew + c1.newRows.length ∧
    (mergeState st c1).ids = c1.ids := by
  by_cases hnil : c1.newRows = [] <;> simp [mergeState, hnil]

theorem processRow_meta (remote : Remote) (st : OrchState) (row : BBoxRow)
    (hinv : ∀ i ∈ metaIds st.meta, i ∈ st.ids) :
    ∃ added,
      (processRow remote st row).1.meta = st.meta ++ added ∧
      (processRow remote st row).1.totalNew = st.totalNew + added.length ∧
      (metaIds added).Nodup ∧
      (∀ i ∈ metaIds added,
        i ∉ st.ids ∧ i ≠ "" ∧ i ∈ (processRow remote st row).1.ids) ∧
      (∀ i ∈ st.ids, i ∈ (processRow remote st row).1.ids) ∧
      (∀ i ∈ metaIds (processRow remote st row).1.meta,
        i ∈ (processRow remote st row).1.ids) := by
  by_cases hyes : pyLower row.downloaded = "yes"
  · rw [processRow_yes remote st row hyes]
    exact ⟨[], by simp, by simp, by simp [metaIds],
      by simp [metaIds], fun i h => h, hinv⟩
  · rcases hml : row.min_lon with _ | a <;>
      rcases hmt : row.min_lat with _ | b <;>
        rcases hxl : row.max_lon with _ | c <;>
          rcases hxt : row.max_lat with _ | d
    on_goal 16 =>
      rcases hr : remote.listImages (bboxStr a b c d) (parseLimit row.lim)
          with e | imgs
      · rw [processRow_listErr remote st row a b c d e hyes hml hmt hxl hxt hr]
        exact ⟨[], by simp, by simp, by simp [metaIds],
          by simp [metaIds], fun i h => h, hinv⟩
      · rw [processRow_ok remote st row a b c d imgs hyes hml hmt hxl hxt hr]
        set c0 : CandState :=
          { ids := st.ids, newRows := [], fs := st.fs,
            events := st.events ++ [NetEvent.listCall (bboxStr a b c d)
              (parseLimit row.lim)] } with hc0
        set c1 := imgs.foldl (processCand remote row.location_name) c0
          with hc1
        have hinv0 : candInv st.ids c0 := by
          refine ⟨fun i h => h, ?_, ?_, ?_⟩ <;> simp [hc0, metaIds]
        have hfold := foldCands_inv remote row.location_name imgs c0 st.ids
          hinv0
        rw [← hc1] at hfold
        obtain ⟨hb, hrn, hnd, hfr⟩ := hfold
        have hmono : ∀ i ∈ st.ids, i ∈ c1.ids := by
          intro i hi
          have := foldCands_ids_mono remote row.location_name imgs c0 i
            (by simp [hc0, hi])
          rwa [← hc1] at this
        obtain ⟨hm1, hm2, hm3⟩ := mergeState_fields st c1
        refine ⟨c1.newRows, by simp [hm1], by simp [hm2], hnd, ?_, ?_, ?_⟩
        · intro i hi
          exact ⟨(hfr i hi).1, (hfr i hi).2, by simp [hm3, hrn i hi]⟩
        · intro i hi
          simp [hm3, hmono i hi]
        · intro i hi
          simp only [hm1, metaIds_append, List.mem_append] at hi
          rcases hi with hi | hi
          · simp [hm3, hmono i (hinv i hi)]
          · simp [hm3, hrn i hi]
    all_goals
      rw [processRow_parseFail remote st row hyes (by simp [hml, hmt, hxl, hxt])]
      exact ⟨[], by simp, by simp, by simp [metaIds],
        by simp [metaIds], fun i h => h, hinv⟩

theorem runRows_meta (remote : Remote) :
    ∀ (rows : List BBoxRow) (st : OrchState),
      (∀ i ∈ metaIds st.meta, i ∈ st.ids) →
      ∃ added,
        (runRows remote st rows).1.meta = st.meta ++ added ∧
        (runRows remote st rows).1.totalNew = st.totalNew + added.length ∧
        (metaIds added).Nodup ∧
        (∀ i ∈ metaIds added, i ∉ st.ids ∧ i ≠ "") ∧
        (∀ i ∈ metaIds (runRows remote st rows).1.meta,
          i ∈ (runRows remote st rows).1.ids) := by
  intro rows
  induction rows with
  | nil =>
    intro st hinv
    exact ⟨[], by simp [runRows], by simp [runRows], by simp [metaIds],
      by simp [metaIds], hinv⟩
  | cons row rest ih =>
    intro st hinv
    obtain ⟨a1, e1, t1, n1, f1, mono1, inv1⟩ :=
      processRow_meta remote st row hinv
    obtain ⟨a2, e2, t2, n2, f2, inv2⟩ := ih (processRow remote st row).1 inv1
    have hrr : (runRows remote st (row :: rest)).1 =
        (runRows remote (processRow remote st row).1 rest).1 := by
    -- runRows on cons steps through processRow
      simp [runRows]
    refine ⟨a1 ++ a2, ?_, ?_, ?_, ?_, ?_⟩
    · rw [hrr, e2, e1, List.append_assoc]
    · rw [hrr, t2, t1]
      simp [Nat.add_assoc]
    · rw [metaIds_append]
      refine List.Nodup.append n1 n2 ?_
      intro i hi1 hi2
      exact (f2 i hi2).1 (f1 i hi1).2.2
    · intro i hi
      rw [metaIds_append, List.mem_append] at hi
      rcases hi with hi | hi
      · exact ⟨(f1 i hi).1, (f1 i hi).2.1⟩
      · refine ⟨?_, (f2 i hi).2⟩
        intro hcontra
        exact (f2 i hi).1 (mono1 i hcontra)
    · rw [hrr]
      exact inv2

/-! ## Run-level corollaries -/

theorem map_fixed {α : Type} (f : α → α) :
    ∀ l : List α, (∀ x ∈ l, f x = x) → l.map f = l := by
  intro l
  induction l with
  | nil => intro h; rfl
  | cons x t ih =>
    intro h
    simp only [List.map_cons]
    rw [h x (by simp), ih (fun y hy => h y (by simp [hy]))]

theorem runMain_queueFile (inp : RunInput) :
    (runMain inp).queueFile =
      (inp.rows.map trimRow).map (rowStep inp.remote) := by
  simp [runMain, runRows_snd]

theorem runMain_meta (inp : RunInput) :
    ∃ added, (runMain inp).meta = inp.meta ++ added ∧
      (runMain inp).totalNew = added.length ∧
      (metaIds added).Nodup ∧
      (∀ i ∈ metaIds added, i ∉ metaIds inp.meta ∧ i ≠ "") ∧
      (runMain inp).metaFile =
        (if added.length > 0 then some ((runMain inp).meta) else none) := by
  obtain ⟨added, e, t, n, f, _⟩ := runRows_meta inp.remote
    (inp.rows.map trimRow)
    { ids := metaIds inp.meta, meta := inp.meta, totalNew := 0,
      fs := inp.fs, events := [] } (fun i h => h)
  refine ⟨added, ?_, ?_, n, f, ?_⟩
  · simpa [runMain] using e
  · simpa [runMain] using t
  · simp [runMain, t]

theorem runMain_nodup (inp : RunInput) (h : (metaIds inp.meta).Nodup) :
    (metaIds (runMain inp).meta).Nodup := by
  obtain ⟨added, e, t, n, f, _⟩ := runMain_meta inp
  rw [e, metaIds_append]
  refine List.Nodup.append h n ?_
  intro i hi1 hi2
  exact (f i hi2).1 hi1

theorem runMain_no_blank_id (inp : RunInput)
    (h : "" ∉ metaIds inp.meta) : "" ∉ metaIds (runMain inp).meta := by
  obtain ⟨added, e, t, n, f, _⟩ := runMain_meta inp
  rw [e, metaIds_append]
  intro hc
  rcases List.mem_append.mp hc with hc | hc
  · exact h hc
  · exact (f _ hc).2 rfl

/-! ## Fixed rows are no-ops -/

theorem processRow_fixed_noop (remote : Remote) (st : OrchState)
    (row : BBoxRow) (hfix : rowStep remote row = row) :
    (processRow remote st row).1.meta = st.meta ∧
    (processRow remote st row).1.totalNew = st.totalNew := by
  by_cases hyes : pyLower row.downloaded = "yes"
  · rw [processRow_yes remote st row hyes]
    exact ⟨rfl, rfl⟩
  · rcases hml : row.min_lon with _ | a <;>
      rcases hmt : row.min_lat with _ | b <;>
        rcases hxl : row.max_lon with _ | c <;>
          rcases hxt : row.max_lat with _ | d
    on_goal 16 =>
      rcases hr : remote.listImages (bboxStr a b c d) (parseLimit row.lim)
          with e | imgs
      · rw [processRow_listErr remote st row a b c d e hyes hml hmt hxl hxt hr]
        exact ⟨rfl, rfl⟩
      · exfalso
        have hstep : rowStep remote row = setYes row := by
          simp [rowStep, hyes, hml, hmt, hxl, hxt, hr]
        rw [hstep] at hfix
        have hd : (setYes row).downloaded = row.downloaded :=
          congrArg BBoxRow.downloaded hfix
        simp only [setYes] at hd
        apply hyes
        rw [← hd]
        exact pyLower_yes
    all_goals
      rw [processRow_parseFail remote st row hyes (by simp [hml, hmt, hxl, hxt])]
      exact ⟨rfl, rfl⟩

theorem runRows_fixed_noop (remote : Remote) :
    ∀ (rows : List BBoxRow) (st : OrchState),
      (∀ r ∈ rows, rowStep remote r = r) →
      (runRows remote st rows).1.meta = st.meta ∧
      (runRows remote st rows).1.totalNew = st.totalNew := by
  intro rows
  induction rows with
  | nil => intro st h; exact ⟨rfl, rfl⟩
  | cons row rest ih =>
    intro st h
    have h1 := processRow_fixed_noop remote st row (h row (by simp))
    have h2 := ih (processRow remote st row).1
      (fun r hr => h r (by simp [hr]))
    have hrr : (runRows remote st (row :: rest)).1 =
        (runRows remote (processRow remote st row).1 rest).1 := by
      simp [runRows]
    rw [hrr]
    exact ⟨h2.1.trans h1.1, h2.2.trans h1.2⟩

theorem queue_elem_fixed (remote : Remote) (r : BBoxRow) :
    trimRow (rowStep remote (trimRow r)) = rowStep remote (trimRow r) ∧
    rowStep remote (rowStep remote (trimRow r)) =
      rowStep remote (trimRow r) := by
  constructor
  · rcases rowStep_cases remote (trimRow r) with h | h
    · rw [h, trimRow_idem]
    · rw [h, trimRow_setYes]
  · exact rowStep_idem remote (trimRow r)

theorem runMain_queue_get (inp : RunInput) (i : Nat) :
    (runMain inp).queueFile[i]? =
      (inp.rows[i]?).map (fun r => rowStep inp.remote (trimRow r)) := by
  rw [runMain_queueFile]
  cases h : inp.rows[i]? <;> simp [List.getElem?_map, h, Function.comp]

theorem queueAfterRuns_yes :
    ∀ (envs : List RunEnv) (rows : List BBoxRow) (i : Nat) (r : BBoxRow),
      rows[i]? = some r → pyLower (trimRow r).downloaded = "yes" →
      ∃ r2, (queueAfterRuns envs rows)[i]? = some r2 ∧
        pyLower (trimRow r2).downloaded = "yes" := by
  intro envs
  induction envs with
  | nil =>
    intro rows i r h hy
    exact ⟨r, h, hy⟩
  | cons e es ih =>
    intro rows i r h hy
    have hq : (runMain ⟨rows, e.meta, e.fs, e.remote⟩).queueFile[i]? =
        some (rowStep e.remote (trimRow r)) := by
      rw [runMain_queue_get]
      simp [h]
    have hfix : rowStep e.remote (trimRow r) = trimRow r :=
      rowStep_yes e.remote (trimRow r) hy
    rw [hfix] at hq
    have hy2 : pyLower (trimRow (trimRow r)).downloaded = "yes" := by
      rw [trimRow_idem]
      exact hy
    simp only [queueAfterRuns]
    exact ih _ i (trimRow r) hq hy2

/-! ## Atomic download lemmas -/

theorem append_part_ne (dest : String) : dest ++ ".part" ≠ dest := by
  intro h
  have h2 := congrArg String.length h
  simp [String.length_append] at h2
  exact absurd h2 (by decide)

theorem download_fail_dest (remote : Remote) (fs : FS) (url dest : String)
    (hfail : fetchFails (remote.fetchStream url)) :
    (download_image remote fs url dest).2 = false ∧
    fsLookup (download_image remote fs url dest).1 dest =
      fsLookup fs dest := by
  cases hf : remote.fetchStream url with
  | httpError => simp [download_image, hf]
  | stream chunks complete =>
    rw [hf] at hfail
    have hc : complete = false := hfail
    subst hc
    refine ⟨by simp [download_image, hf], ?_⟩
    simp only [download_image, hf, Bool.false_eq_true, if_false]
    simp only [fsLookup, fsWrite]
    rw [if_neg (fun hcontra => append_part_ne dest hcontra.symm)]

theorem processCand_dlfail (remote : Remote) (loc : String) (st : CandState)
    (img : Candidate) (lon lat : ℚ) (url : String)
    (hid : candId img ≠ "") (hmem : candId img ∉ st.ids)
    (hc : safe_coords img = some (lon, lat))
    (ht : remote.thumbUrl (candId img) = some url)
    (hex : fsLookup st.fs (imgPath (candId img)) = none)
    (hfail : fetchFails (remote.fetchStream url)) :
    processCand remote loc st img =
      { st with
        events := st.events ++
          [NetEvent.thumbCall (candId img), NetEvent.byteFetch url],
        fs := (download_image remote st.fs url (imgPath (candId img))).1 } := by
  have hskip : ¬ (candId img = "" ∨ candId img ∈ st.ids) := by
    simp [hid, hmem]
  have hex2 : fsExists st.fs (imgPath (candId img)) = false := by
    simp [fsExists, fsLookup] at hex ⊢
    simp [hex]
  have hdl := (download_fail_dest remote st.fs url (imgPath (candId img))
    hfail).1
  simp [processCand, hskip, hc, ht, hex2, hdl]

theorem processCand_existing_file (remote : Remote) (loc : String)
    (st : CandState) (img : Candidate) (lon lat : ℚ) (url : String)
    (hid : candId img ≠ "") (hmem : candId img ∉ st.ids)
    (hc : safe_coords img = some (lon, lat))
    (ht : remote.thumbUrl (candId img) = some url)
    (hex : fsExists st.fs (imgPath (candId img)) = true) :
    processCand remote loc st img =
      { st with
        events := st.events ++ [NetEvent.thumbCall (candId img)],
        newRows := st.newRows ++
          [mkRecord (candId img) loc lon lat
            (safe_timestamp_ms img.captured_at)
            (imgPath (candId img)) url],
        ids := st.ids ++ [candId img] } := by
  have hskip : ¬ (candId img = "" ∨ candId img ∈ st.ids) := by
    simp [hid, hmem]
  simp [processCand, hskip, hc, ht, hex]

/-! ## Retry policy lemmas -/

theorem runRetryGo_attempts_le (server : Nat → ServerResp) :
    ∀ (r k : Nat) (sleeps : List Nat),
      (runRetryGo server r k sleeps).attempts ≤ k + r + 1 := by
  intro r
  induction r with
  | zero =>
    intro k sleeps
    cases hs : server k <;> simp [runRetryGo, hs]
  | succ r ih =>
    intro k sleeps
    cases hs : server k with
    | status c =>
      by_cases hin : c ∈ statusForcelist
      · have ihx := ih (k + 1) (sleeps ++ [retryBackoff (retryTotal - r)])
        simp only [runRetryGo, hs, hin, if_true]
        omega
      · simp only [runRetryGo, hs, hin, if_false]
        simp
    | connFail =>
      have ihx := ih (k + 1) (sleeps ++ [retryBackoff (retryTotal - r)])
      simp only [runRetryGo, hs]
      omega

theorem runRetry_attempts_le (server : Nat → ServerResp) :
    (runRetry server).attempts ≤ retryTotal + 1 := by
  have h := runRetryGo_attempts_le server retryTotal 0 []
  simpa [runRetry] using h

theorem runRetry_first_nonretry (server : Nat → ServerResp) (c : Nat)
    (h0 : server 0 = ServerResp.status c) (hns : c ∉ statusForcelist) :
    runRetry server =
      { attempts := 1, sleeps := [], response := some c } := by
  have h5 : runRetry server = runRetryGo server (4 + 1) 0 [] := rfl
  rw [h5]
  simp only [runRetryGo, h0]
  simp [hns]

theorem runRetry_first_retry_status (server : Nat → ServerResp) (c : Nat)
    (h0 : server 0 = ServerResp.status c) (hin : c ∈ statusForcelist) :
    runRetry server = runRetryGo server 4 1 [retryBackoff 1] := by
  have h5 : runRetry server = runRetryGo server (4 + 1) 0 [] := rfl
  rw [h5]
  simp only [runRetryGo, h0, hin, if_true]
  norm_num [retryTotal]

theorem runRetry_first_retry_conn (server : Nat → ServerResp)
    (h0 : server 0 = ServerResp.connFail) :
    runRetry server = runRetryGo server 4 1 [retryBackoff 1] := by
  have h5 : runRetry server = runRetryGo server (4 + 1) 0 [] := rfl
  rw [h5]
  simp only [runRetryGo, h0]
  norm_num [retryTotal]

theorem retryBackoff_first : retryBackoff 1 = 0 := by decide

theorem retryBackoff_second : retryBackoff 2 = 2 := by decide

theorem retryBackoff_double (n : Nat) (h : 2 ≤ n) :
    retryBackoff (n + 1) = 2 * retryBackoff n := by
  obtain ⟨m, rfl⟩ := Nat.exists_eq_add_of_le h
  simp only [retryBackoff, retryBackoffFactor]
  have h1 : ¬ (2 + m + 1 ≤ 1) := by omega
  have h2 : ¬ (2 + m ≤ 1) := by omega
  rw [if_neg h1, if_neg h2]
  have h3 : 2 + m + 1 - 1 = (2 + m - 1) + 1 := by omega
  rw [h3, pow_succ]
  ring

theorem mergeState_events (st : OrchState) (c1 : CandState) :
    (mergeState st c1).events = c1.events := by
  by_cases hnil : c1.newRows = [] <;> simp [mergeState, hnil]

/-! ## Concrete fixtures used by witnesses and counterexamples -/

/-- Remote whose listing call always fails with a transport error. -/
def wRemoteErr : Remote :=
  { listImages := fun _ _ => .error (), thumbUrl := fun _ => none,
    fetchStream := fun _ => .httpError }

/-- Remote whose listing succeeds with no candidates. -/
def wRemoteOkEmpty : Remote :=
  { listImages := fun _ _ => .ok [], thumbUrl := fun _ => none,
    fetchStream := fun _ => .httpError }

/-- Remote that resolves every thumbnail to a fixed URL and whose byte
fetches always fail. -/
def wRemoteThumb : Remote :=
  { listImages := fun _ _ => .ok [], thumbUrl := fun _ => some "u",
    fetchStream := fun _ => .httpError }

/-- Candidate with id `a`, valid coordinates and no timestamp. -/
def wImgA : Candidate :=
  { id := some "a", computed_geometry := some { coordinates := [1, 2] },
    geometry := none, captured_at := none }

/-- Candidate with no id field at all. -/
def wImgNoId : Candidate :=
  { id := none, computed_geometry := none, geometry := none,
    captured_at := none }

/-- Candidate-loop state whose id set already holds `a`. -/
def wCandStA : CandState :=
  { ids := ["a"], newRows := [], fs := emptyFS, events := [] }

/-- Empty candidate-loop state. -/
def wCandStEmpty : CandState :=
  { ids := [], newRows := [], fs := emptyFS, events := [] }

/-- File system already holding the asset for id `a`. -/
def wFSexisting : FS := fsWrite emptyFS (imgPath "a") []

/-- Candidate-loop state over `wFSexisting`. -/
def wCandStFile : CandState :=
  { ids := [], newRows := [], fs := wFSexisting, events := [] }

/-- Run input with empty queue and catalog. -/
def wInpEmpty : RunInput :=
  { rows := [], meta := [], fs := emptyFS, remote := wRemoteErr }

/-- Pending task row with a well-ordered bbox. -/
def wRowNo : BBoxRow :=
  { location_name := "L", min_lon := some 0, min_lat := some 0,
    max_lon := some 1, max_lat := some 1, lim := "", downloaded := "no" }

/-- Completed task row. -/
def wRowYes : BBoxRow :=
  { location_name := "L", min_lon := some 0, min_lat := some 0,
    max_lon := some 1, max_lat := some 1, lim := "", downloaded := "yes" }

/-- Pending task row whose bounds parse but violate the ordering
`min_lon < max_lon` (its `min_lon` is 1 while `max_lon` is 0). -/
def wRowBad : BBoxRow :=
  { location_name := "L", min_lon := some 1, min_lat := some 0,
    max_lon := some 0, max_lat := some 1, lim := "", downloaded := "no" }

/-- Empty task-loop state. -/
def wOrchEmpty : OrchState :=
  { ids := [], meta := [], totalNew := 0, fs := emptyFS, events := [] }

/-- Run input with a single completed task. -/
def wInpOne : RunInput :=
  { rows := [wRowYes], meta := [], fs := emptyFS, remote := wRemoteErr }

/-! ## The claims -/

/-- C1: for any two candidates sharing an id — whether the id was loaded
from the persisted catalog or added earlier in the same run — at most one
`ImageRecord` is ever created (the catalog never holds two records with
the same id), and a candidate whose id is already in the in-memory id
set is skipped with no state change at all, in particular before any
thumbnail call or byte fetch is issued. -/
theorem c1_dedup_unique_ids (inp : RunInput) (remote : Remote)
    (loc : String) (st : CandState) (img : Candidate)
    (h1 : (metaIds inp.meta).Nodup) (h2 : candId img ∈ st.ids) :
    (metaIds (runMain inp).meta).Nodup ∧
    processCand remote loc st img = st :=
  ⟨runMain_nodup inp h1, processCand_skip remote loc st img (Or.inr h2)⟩

/-- Witness for C1 at a concrete input: duplicate-free catalog, and a
candidate whose id `a` is already seen. -/
theorem c1_dedup_unique_ids_witness :
    ((metaIds wInpEmpty.meta).Nodup ∧ candId wImgA ∈ wCandStA.ids) ∧
    ((metaIds (runMain wInpEmpty).meta).Nodup ∧
      processCand wRemoteErr "L" wCandStA wImgA = wCandStA) :=
  ⟨⟨by decide, by decide⟩,
    c1_dedup_unique_ids wInpEmpty wRemoteErr "L" wCandStA wImgA (by decide)
      (by decide)⟩

/-- C2: `download_image` streams into `dest + ".part"` and renames onto
`dest` only after the whole stream is consumed; if the fetch fails
partway the download reports failure, the final destination is exactly
as before (so nothing ever appears there), and the orchestrator appends
no record and marks no id for that candidate, leaving at most a `.part`
artifact. -/
theorem c2_atomic_download (remote : Remote) (fs : FS)
    (url dest loc : String) (st : CandState) (img : Candidate)
    (lon lat : ℚ)
    (hfail : fetchFails (remote.fetchStream url))
    (hid : candId img ≠ "") (hmem : candId img ∉ st.ids)
    (hc : safe_coords img = some (lon, lat))
    (ht : remote.thumbUrl (candId img) = some url)
    (hex : fsLookup st.fs (imgPath (candId img)) = none) :
    (download_image remote fs url dest).2 = false ∧
    fsLookup (download_image remote fs url dest).1 dest =
      fsLookup fs dest ∧
    (processCand remote loc st img).newRows = st.newRows ∧
    (processCand remote loc st img).ids = st.ids ∧
    fsLookup (processCand remote loc st img).fs
      (imgPath (candId img)) = none := by
  obtain ⟨hok, hsame⟩ := download_fail_dest remote fs url dest hfail
  have hpc := processCand_dlfail remote loc st img lon lat url hid hmem hc
    ht hex hfail
  obtain ⟨hok2, hsame2⟩ :=
    download_fail_dest remote st.fs url (imgPath (candId img)) hfail
  refine ⟨hok, hsame, ?_, ?_, ?_⟩
  · rw [hpc]
  · rw [hpc]
  · rw [hpc]
    simpa [hsame2] using hex

/-- Witness for C2 at a concrete input: thumbnail resolves to `u`, the
byte fetch of `u` fails before any body, and no file sits at the asset
path. -/
theorem c2_atomic_download_witness :
    (fetchFails (wRemoteThumb.fetchStream "u") ∧ candId wImgA ≠ "" ∧
      candId wImgA ∉ wCandStEmpty.ids ∧
      safe_coords wImgA = some (1, 2) ∧
      wRemoteThumb.thumbUrl (candId wImgA) = some "u" ∧
      fsLookup wCandStEmpty.fs (imgPath (candId wImgA)) = none) ∧
    ((download_image wRemoteThumb emptyFS "u" "d").2 = false ∧
      fsLookup (download_image wRemoteThumb emptyFS "u" "d").1 "d" =
        fsLookup emptyFS "d" ∧
      (processCand wRemoteThumb "L" wCandStEmpty wImgA).newRows =
        wCandStEmpty.newRows ∧
      (processCand wRemoteThumb "L" wCandStEmpty wImgA).ids =
        wCandStEmpty.ids ∧
      fsLookup (processCand wRemoteThumb "L" wCandStEmpty wImgA).fs
        (imgPath (candId wImgA)) = none) :=
  ⟨⟨trivial, by decide, by decide, by decide, rfl, rfl⟩,
    c2_atomic_download wRemoteThumb emptyFS "u" "d" "L" wCandStEmpty wImgA
      1 2 trivial (by decide) (by decide) (by decide) rfl rfl⟩

/-- C3: if the candidate-listing call for a pending, well-formed task
fails with a transport error, the task row is written back unchanged
(`downloaded` not set to `"yes"`), the catalog and `total_new` are
untouched, and the loop simply proceeds to the remaining tasks; by
contrast, whenever the listing call succeeds the task is marked
`downloaded = "yes"` no matter how its individual candidates fare. -/
theorem c3_listing_failure_asymmetry (remote : Remote) (st : OrchState)
    (row : BBoxRow) (rest : List BBoxRow) (a b c d : ℚ)
    (imgs : List Candidate)
    (hy : ¬ pyLower row.downloaded = "yes")
    (h1 : row.min_lon = some a) (h2 : row.min_lat = some b)
    (h3 : row.max_lon = some c) (h4 : row.max_lat = some d) :
    (remote.listImages (bboxStr a b c d) (parseLimit row.lim) =
        .error () →
      processRow remote st row =
        ({ st with events := st.events ++
            [NetEvent.listCall (bboxStr a b c d) (parseLimit row.lim)] },
          row)) ∧
    (runRows remote st (row :: rest) =
      ((runRows remote (processRow remote st row).1 rest).1,
        (processRow remote st row).2 ::
          (runRows remote (processRow remote st row).1 rest).2)) ∧
    (remote.listImages (bboxStr a b c d) (parseLimit row.lim) =
        .ok imgs →
      (processRow remote st row).2 = setYes row ∧
      (processRow remote st row).2.downloaded = "yes") := by
  refine ⟨?_, by simp [runRows], ?_⟩
  · intro he
    exact processRow_listErr remote st row a b c d () hy h1 h2 h3 h4 he
  · intro ho
    rw [processRow_ok remote st row a b c d imgs hy h1 h2 h3 h4 ho]
    exact ⟨rfl, rfl⟩

/-- Witness for C3 at a concrete input: a pending task against a remote
whose listing call always fails. -/
theorem c3_listing_failure_asymmetry_witness :
    ((¬ pyLower wRowNo.downloaded = "yes") ∧ wRowNo.min_lon = some 0 ∧
      wRowNo.min_lat = some 0 ∧ wRowNo.max_lon = some 1 ∧
      wRowNo.max_lat = some 1) ∧
    ((wRemoteErr.listImages (bboxStr 0 0 1 1) (parseLimit wRowNo.lim) =
        .error () →
      processRow wRemoteErr wOrchEmpty wRowNo =
        ({ wOrchEmpty with events := wOrchEmpty.events ++
            [NetEvent.listCall (bboxStr 0 0 1 1)
              (parseLimit wRowNo.lim)] }, wRowNo)) ∧
    (runRows wRemoteErr wOrchEmpty (wRowNo :: []) =
      ((runRows wRemoteErr
          (processRow wRemoteErr wOrchEmpty wRowNo).1 []).1,
        (processRow wRemoteErr wOrchEmpty wRowNo).2 ::
          (runRows wRemoteErr
            (processRow wRemoteErr wOrchEmpty wRowNo).1 []).2)) ∧
    (wRemoteErr.listImages (bboxStr 0 0 1 1) (parseLimit wRowNo.lim) =
        .ok [] →
      (processRow wRemoteErr wOrchEmpty wRowNo).2 = setYes wRowNo ∧
      (processRow wRemoteErr wOrchEmpty wRowNo).2.downloaded = "yes")) :=
  ⟨⟨by decide, rfl, rfl, rfl, rfl⟩,
    c3_listing_failure_asymmetry wRemoteErr wOrchEmpty wRowNo [] 0 0 1 1 []
      (by decide) rfl rfl rfl rfl⟩

/-- C4: the `downloaded` flag only ever moves towards `"yes"`: a single
run writes each row back either unchanged (beyond the column strip) or
with `downloaded = "yes"`, a row already completed is written back
exactly as is, and across any sequence of runs a completed task stays
completed. -/
theorem c4_monotone_completion (envs : List RunEnv) (inp : RunInput)
    (i : Nat) (r : BBoxRow) (h : inp.rows[i]? = some r) :
    ((runMain inp).queueFile[i]? = some (trimRow r) ∨
      (runMain inp).queueFile[i]? = some (setYes (trimRow r))) ∧
    (pyLower (trimRow r).downloaded = "yes" →
      (runMain inp).queueFile[i]? = some (trimRow r)) ∧
    (pyLower (trimRow r).downloaded = "yes" →
      ∃ r2, (queueAfterRuns envs inp.rows)[i]? = some r2 ∧
        pyLower (trimRow r2).downloaded = "yes") := by
  have hget : (runMain inp).queueFile[i]? =
      some (rowStep inp.remote (trimRow r)) := by
    rw [runMain_queue_get]
    simp [h]
  refine ⟨?_, ?_, ?_⟩
  · rcases rowStep_cases inp.remote (trimRow r) with hs | hs
    · left; rw [hget, hs]
    · right; rw [hget, hs]
  · intro hy
    rw [hget, rowStep_yes inp.remote (trimRow r) hy]
  · intro hy
    exact queueAfterRuns_yes envs inp.rows i r h hy

/-- Witness for C4 at a concrete input: a queue holding one completed
task, followed by no further runs. -/
theorem c4_monotone_completion_witness :
    (wInpOne.rows[0]? = some wRowYes) ∧
    (((runMain wInpOne).queueFile[0]? = some (trimRow wRowYes) ∨
      (runMain wInpOne).queueFile[0]? = some (setYes (trimRow wRowYes))) ∧
    (pyLower (trimRow wRowYes).downloaded = "yes" →
      (runMain wInpOne).queueFile[0]? = some (trimRow wRowYes)) ∧
    (pyLower (trimRow wRowYes).downloaded = "yes" →
      ∃ r2, (queueAfterRuns [] wInpOne.rows)[0]? = some r2 ∧
        pyLower (trimRow r2).downloaded = "yes")) :=
  ⟨rfl, c4_monotone_completion [] wInpOne 0 wRowYes rfl⟩

/-- C5: running the engine a second time against the same remote oracle,
starting from the queue file the first run wrote, adds zero records (the
catalog of the second run is exactly what it loaded and no catalog save
happens) and writes a queue file identical to the first run's. -/
theorem c5_second_run_idempotent (remote : Remote) (rows : List BBoxRow)
    (meta meta2 : List ImageRecord) (fs fs2 : FS) :
    (runMain ⟨(runMain ⟨rows, meta, fs, remote⟩).queueFile, meta2, fs2,
        remote⟩).totalNew = 0 ∧
    (runMain ⟨(runMain ⟨rows, meta, fs, remote⟩).queueFile, meta2, fs2,
        remote⟩).meta = meta2 ∧
    (runMain ⟨(runMain ⟨rows, meta, fs, remote⟩).queueFile, meta2, fs2,
        remote⟩).metaFile = none ∧
    (runMain ⟨(runMain ⟨rows, meta, fs, remote⟩).queueFile, meta2, fs2,
        remote⟩).queueFile = (runMain ⟨rows, meta, fs, remote⟩).queueFile := by
  set q1 := (runMain ⟨rows, meta, fs, remote⟩).queueFile with hq1
  have hform : ∀ x ∈ q1, ∃ r, x = rowStep remote (trimRow r) := by
    intro x hx
    rw [hq1, runMain_queueFile] at hx
    simp only [List.mem_map] at hx
    obtain ⟨y, ⟨r, hr, rfl⟩, rfl⟩ := hx
    exact ⟨r, rfl⟩
  have hfixT : ∀ x ∈ q1, trimRow x = x := by
    intro x hx
    obtain ⟨r, rfl⟩ := hform x hx
    exact (queue_elem_fixed remote r).1
  have hfixS : ∀ x ∈ q1, rowStep remote x = x := by
    intro x hx
    obtain ⟨r, rfl⟩ := hform x hx
    exact (queue_elem_fixed remote r).2
  have hmap : q1.map trimRow = q1 := map_fixed trimRow q1 hfixT
  have hnoop := runRows_fixed_noop remote (q1.map trimRow)
    { ids := metaIds meta2, meta := meta2, totalNew := 0, fs := fs2,
      events := [] } (by rw [hmap]; exact hfixS)
  have htn : (runMain ⟨q1, meta2, fs2, remote⟩).totalNew = 0 := by
    simp only [runMain]
    exact hnoop.2
  have hmeta : (runMain ⟨q1, meta2, fs2, remote⟩).meta = meta2 := by
    simp only [runMain]
    exact hnoop.1
  refine ⟨htn, hmeta, ?_, ?_⟩
  · simp only [runMain] at htn ⊢
    rw [htn]
    simp
  · rw [runMain_queueFile]
    show (q1.map trimRow).map (rowStep remote) = q1
    rw [hmap]
    exact map_fixed (rowStep remote) q1 hfixS

/-- C6 counterexample: a task whose bounds all parse but violate
`min_lon < max_lon` (it has `min_lon` 1 and `max_lon` 0) is not treated
as a validation error by the code.  Against a remote whose listing
returns no candidates, the task is both sent to the remote API (the
listing call is issued) and marked completed, contradicting "skipped
with a warning, neither completed nor sent to the remote API". -/
theorem c6_counterexample :
    ¬ ((1 : ℚ) < 0) ∧
    (processRow wRemoteOkEmpty wOrchEmpty wRowBad).2.downloaded = "yes" ∧
    (processRow wRemoteOkEmpty wOrchEmpty wRowBad).1.events =
      [NetEvent.listCall (bboxStr 1 0 0 1) 60] := by
  refine ⟨by decide, ?_, ?_⟩ <;>
    rw [processRow_ok wRemoteOkEmpty wOrchEmpty wRowBad 1 0 0 1 []
      (by decide) rfl rfl rfl rfl rfl]
  · rfl
  · rw [mergeState_events]
    show ([] : List NetEvent) ++
        [NetEvent.listCall (bboxStr 1 0 0 1) (parseLimit "")] = _
    rw [show parseLimit "" = 60 from by decide]
    simp

/-- C6 (amended): only tasks whose four numeric bounds fail to parse as
floats are treated as validation errors and skipped (left untouched,
neither completed nor sent to the remote API, without crashing the run);
bounds that parse are never checked for `min_lon < max_lon` or
`min_lat < max_lat`, and such a task is sent to the remote API like any
ordinary task. -/
theorem c6_amended_parse_only_validation (remote : Remote)
    (st : OrchState) (row : BBoxRow) (a b c d : ℚ)
    (hy : ¬ pyLower row.downloaded = "yes") :
    ((row.min_lon = none ∨ row.min_lat = none ∨ row.max_lon = none ∨
        row.max_lat = none) →
      processRow remote st row = (st, row)) ∧
    (row.min_lon = some a → row.min_lat = some b → row.max_lon = some c →
      row.max_lat = some d →
      ∃ evs, (processRow remote st row).1.events = st.events ++
        NetEvent.listCall (bboxStr a b c d) (parseLimit row.lim) :: evs) := by
  constructor
  · intro hn
    exact processRow_parseFail remote st row hy hn
  · intro h1 h2 h3 h4
    rcases hr : remote.listImages (bboxStr a b c d) (parseLimit row.lim)
        with e | imgs
    · rw [processRow_listErr remote st row a b c d e hy h1 h2 h3 h4 hr]
      exact ⟨[], rfl⟩
    · rw [processRow_ok remote st row a b c d imgs hy h1 h2 h3 h4 hr]
      rw [mergeState_events]
      obtain ⟨de, hde⟩ := foldCands_events remote row.location_name imgs
        { ids := st.ids, newRows := [], fs := st.fs,
          events := st.events ++ [NetEvent.listCall (bboxStr a b c d)
            (parseLimit row.lim)] }
      refine ⟨de, ?_⟩
      rw [hde]
      simp

/-- Witness for C6 (amended) at a concrete input: a pending task with a
bounds-ordering violation against a remote returning no candidates. -/
theorem c6_amended_parse_only_validation_witness :
    (¬ pyLower wRowBad.downloaded = "yes") ∧
    (((wRowBad.min_lon = none ∨ wRowBad.min_lat = none ∨
        wRowBad.max_lon = none ∨ wRowBad.max_lat = none) →
      processRow wRemoteOkEmpty wOrchEmpty wRowBad =
        (wOrchEmpty, wRowBad)) ∧
    (wRowBad.min_lon = some 1 → wRowBad.min_lat = some 0 →
      wRowBad.max_lon = some 0 → wRowBad.max_lat = some 1 →
      ∃ evs, (processRow wRemoteOkEmpty wOrchEmpty wRowBad).1.events =
        wOrchEmpty.events ++ NetEvent.listCall (bboxStr 1 0 0 1)
          (parseLimit wRowBad.lim) :: evs)) :=
  ⟨by decide,
    c6_amended_parse_only_validation wRemoteOkEmpty wOrchEmpty wRowBad
      1 0 0 1 (by decide)⟩

/-- C7 counterexample: against a server that always answers 503, the
session configured by `build_session` issues 6 attempts (the initial
request plus `total=5` retries), not 5 attempts total as claimed, and
its backoff sequence is 0, 2, 4, 8, 16 — the first retry is immediate,
so the backoff does not start at 1 time unit either; the final 503 is
returned (`raise_on_status=False`). -/
theorem c7_counterexample :
    runRetry (fun _ => ServerResp.status 503) =
      { attempts := 6, sleeps := [0, 2, 4, 8, 16], response := some 503 } ∧
    (runRetry (fun _ => ServerResp.status 503)).attempts ≠ 5 ∧
    (runRetry (fun _ => ServerResp.status 503)).sleeps.head? ≠ some 1 := by
  refine ⟨by decide, by decide, by decide⟩

/-- C7 (amended): every GET through the session is retried on the status
set {429, 500, 502, 503, 504} and on connection-level failures, up to 5
retries — hence at most 6 attempts in total, not 5; the first retry
happens immediately (its backoff is 0), the second backs off 2 time
units, and each later retry doubles the previous backoff; a
non-retryable status is returned immediately after a single attempt
with no sleep. -/
theorem c7_amended_retry_policy (server : Nat → ServerResp) (c n : Nat)
    (hn : 2 ≤ n) :
    (runRetry server).attempts ≤ retryTotal + 1 ∧
    (server 0 = ServerResp.status c → c ∉ statusForcelist →
      runRetry server =
        { attempts := 1, sleeps := [], response := some c }) ∧
    (server 0 = ServerResp.status c → c ∈ statusForcelist →
      runRetry server = runRetryGo server 4 1 [retryBackoff 1]) ∧
    (server 0 = ServerResp.connFail →
      runRetry server = runRetryGo server 4 1 [retryBackoff 1]) ∧
    retryBackoff 1 = 0 ∧
    retryBackoff 2 = 2 ∧
    retryBackoff (n + 1) = 2 * retryBackoff n :=
  ⟨runRetry_attempts_le server,
    fun h0 hns => runRetry_first_nonretry server c h0 hns,
    fun h0 hin => runRetry_first_retry_status server c h0 hin,
    fun h0 => runRetry_first_retry_conn server h0,
    retryBackoff_first,
    retryBackoff_second,
    retryBackoff_double n hn⟩

/-- Witness for C7 (amended) at a concrete input: a server whose first
answer is the non-retryable status 404. -/
theorem c7_amended_retry_policy_witness :
    (2 ≤ 2) ∧
    ((runRetry (fun _ => ServerResp.status 404)).attempts ≤
        retryTotal + 1 ∧
    ((fun _ => ServerResp.status 404) 0 = ServerResp.status 404 →
      404 ∉ statusForcelist →
      runRetry (fun _ => ServerResp.status 404) =
        { attempts := 1, sleeps := [], response := some 404 }) ∧
    ((fun _ => ServerResp.status 404) 0 = ServerResp.status 404 →
      404 ∈ statusForcelist →
      runRetry (fun _ => ServerResp.status 404) =
        runRetryGo (fun _ => ServerResp.status 404) 4 1 [retryBackoff 1]) ∧
    ((fun _ => ServerResp.status 404) 0 = ServerResp.connFail →
      runRetry (fun _ => ServerResp.status 404) =
        runRetryGo (fun _ => ServerResp.status 404) 4 1 [retryBackoff 1]) ∧
    retryBackoff 1 = 0 ∧
    retryBackoff 2 = 2 ∧
    retryBackoff (2 + 1) = 2 * retryBackoff 2) :=
  ⟨by decide,
    c7_amended_retry_policy (fun _ => ServerResp.status 404) 404 2
      (by decide)⟩

/-- C8: once the task loop finishes, the Work Queue file is always
rewritten in full (one output row per input row, equal to the final task
rows), while the Asset Catalog file is rewritten exactly when at least
one record was added during the run and is left untouched when zero
records were added. -/
theorem c8_save_discipline (inp : RunInput) :
    (runMain inp).queueFile = (runMain inp).rowsOut ∧
    (runMain inp).queueFile.length = inp.rows.length ∧
    ∃ added, (runMain inp).meta = inp.meta ++ added ∧
      (runMain inp).totalNew = added.length ∧
      (added = [] → (runMain inp).metaFile = none) ∧
      (added ≠ [] → (runMain inp).metaFile =
        some ((runMain inp).meta)) := by
  obtain ⟨added, e, t, n, f, hfile⟩ := runMain_meta inp
  refine ⟨rfl, ?_, added, e, t, ?_, ?_⟩
  · rw [runMain_queueFile]
    simp
  · intro hnil
    rw [hfile, hnil]
    simp
  · intro hnil
    rw [hfile, if_pos]
    simpa [List.length_pos] using hnil

/-- C9: a listed candidate whose id is absent, or empty or
whitespace-only after `str()` conversion and stripping, is skipped
before any coordinate resolution, network call or record creation — the
candidate-loop state is returned completely unchanged — and a catalog
that holds no record with an empty id still holds none after a run. -/
theorem c9_blank_id_skipped (remote : Remote) (loc : String)
    (st : CandState) (img : Candidate) (inp : RunInput)
    (h1 : candId img = "") (h2 : "" ∉ metaIds inp.meta) :
    processCand remote loc st img = st ∧
    "" ∉ metaIds (runMain inp).meta :=
  ⟨processCand_skip remote loc st img (Or.inl h1),
    runMain_no_blank_id inp h2⟩

/-- Witness for C9 at a concrete input: a candidate with no id field and
an empty loaded catalog. -/
theorem c9_blank_id_skipped_witness :
    (candId wImgNoId = "" ∧ "" ∉ metaIds wInpEmpty.meta) ∧
    (processCand wRemoteErr "L" wCandStEmpty wImgNoId = wCandStEmpty ∧
      "" ∉ metaIds (runMain wInpEmpty).meta) :=
  ⟨⟨by decide, by decide⟩,
    c9_blank_id_skipped wRemoteErr "L" wCandStEmpty wImgNoId wInpEmpty
      (by decide) (by decide)⟩

/-- C10: when a file already sits at the deterministic asset path of an
uncatalogued candidate that has coordinates and a resolvable thumbnail,
the orchestrator issues no byte fetch (only the thumbnail call appears
in the trace and the file system is untouched) yet still appends a
record whose `file_path` references the existing file and whose
`image_url` is the thumbnail URL freshly resolved in this run. -/
theorem c10_existing_file_still_recorded (remote : Remote) (loc : String)
    (st : CandState) (img : Candidate) (lon lat : ℚ) (url : String)
    (hid : candId img ≠ "") (hmem : candId img ∉ st.ids)
    (hc : safe_coords img = some (lon, lat))
    (ht : remote.thumbUrl (candId img) = some url)
    (hex : fsExists st.fs (imgPath (candId img)) = true) :
    processCand remote loc st img =
      { st with
        events := st.events ++ [NetEvent.thumbCall (candId img)],
        newRows := st.newRows ++
          [mkRecord (candId img) loc lon lat
            (safe_timestamp_ms img.captured_at)
            (imgPath (candId img)) url],
        ids := st.ids ++ [candId img] } :=
  processCand_existing_file remote loc st img lon lat url hid hmem hc ht
    hex

/-- Witness for C10 at a concrete input: the asset for id `a` already
exists on disk while `a` is not yet catalogued. -/
theorem c10_existing_file_still_recorded_witness :
    (candId wImgA ≠ "" ∧ candId wImgA ∉ wCandStFile.ids ∧
      safe_coords wImgA = some (1, 2) ∧
      wRemoteThumb.thumbUrl (candId wImgA) = some "u" ∧
      fsExists wCandStFile.fs (imgPath (candId wImgA)) = true) ∧
    processCand wRemoteThumb "L" wCandStFile wImgA =
      { wCandStFile with
        events := wCandStFile.events ++
          [NetEvent.thumbCall (candId wImgA)],
        newRows := wCandStFile.newRows ++
          [mkRecord (candId wImgA) "L" 1 2
            (safe_timestamp_ms wImgA.captured_at)
            (imgPath (candId wImgA)) "u"],
        ids := wCandStFile.ids ++ [candId wImgA] } :=
  ⟨⟨by decide, by decide, by decide, rfl, by decide⟩,
    c10_existing_file_still_recorded wRemoteThumb "L" wCandStFile wImgA
      1 2 "u" (by decide) (by decide) (by decide) rfl (by decide)⟩

end Trails
